import Mathlib

/-!
Shallow embedding of the dragonfly session subsystem
(src/dragonfly/session/session.go): the packet dispatcher and its read loop,
the chunk streaming loop, the outbound write guard, the per-session
entity-handle registry, the global presence directory, and the lifecycle
operations Start and Close. External collaborators (connection, world, loader,
logger, chat) are represented only through the observable facts the session
mutates about them. Functions of this repository that are referenced by the
source file but live outside it (addToPlayerList, removeFromPlayerList,
HandleFor, Forget) are modelled from the specification and marked as such.
-/

/-- Kinds of inbound packets distinguished by handlePacket
(session.go lines 173 to 188). -/
inductive PacketKind where
  | text
  | commandRequest
  | movePlayer
  | requestChunkRadius
  | bossEvent
  | unknown (tag : Nat)
  deriving DecidableEq, Repr

/-- An inbound packet together with the outcome the typed handler for its kind
produces on it. The four typed handlers (handleText, handleCommandRequest,
handleMovePlayer, handleRequestChunkRadius) are outside this source file, so
the error outcome each would return is carried as data on the packet value. -/
structure InPacket where
  kind : PacketKind
  handlerFails : Bool
  deriving DecidableEq, Repr

/-- Outcome of dispatching one packet: whether an error is returned to the
read loop, and whether the packet was logged at debug severity. -/
structure DispatchResult where
  isErr : Bool
  debugLogged : Bool
  deriving DecidableEq, Repr

/-- handlePacket (session.go lines 173 to 188): dispatch on the packet kind.
The four handled kinds return the result of their typed handler, BossEvent is
ignored with no action at all, and every other kind is logged at debug
severity and produces no error. -/
def handlePacket (pk : InPacket) : DispatchResult :=
  match pk.kind with
  | PacketKind.text => { isErr := pk.handlerFails, debugLogged := false }
  | PacketKind.commandRequest => { isErr := pk.handlerFails, debugLogged := false }
  | PacketKind.movePlayer => { isErr := pk.handlerFails, debugLogged := false }
  | PacketKind.requestChunkRadius => { isErr := pk.handlerFails, debugLogged := false }
  | PacketKind.bossEvent => { isErr := false, debugLogged := false }
  | PacketKind.unknown _ => { isErr := false, debugLogged := true }

/-- One result of conn.ReadPacket in the read loop: a packet, or a read
error. -/
inductive ReadEvent where
  | recv (pk : InPacket)
  | readErr
  deriving DecidableEq, Repr

/-- Why the read loop stopped. -/
inductive StopCause where
  | readError
  | handlerError
  deriving DecidableEq, Repr

/-- The two deferred teardown steps of handlePackets, in their order: send on
the rendezvous channel that stops sendChunks, then invoke Close
(session.go lines 133 to 136). -/
inductive TAction where
  | signalScheduler
  | invokeClose
  deriving DecidableEq, Repr

/-- Observable outcome of running the read loop on a finite sequence of read
results. -/
structure LoopOutcome where
  handled : List InPacket
  closed : Bool
  teardown : List TAction
  cause : Option StopCause
  deriving DecidableEq, Repr

/-- handlePackets (session.go lines 131 to 150) on a finite sequence of read
results: read one message; on a read error stop and run the deferred teardown
(rendezvous signal to the scheduler, then Close); on success dispatch through
handlePacket; on a handler error log it, stop, and run the same teardown. An
exhausted sequence means the loop is still blocked on its next read. -/
def handlePackets : List ReadEvent → LoopOutcome
  | [] => { handled := [], closed := false, teardown := [], cause := none }
  | ReadEvent.readErr :: _ =>
      { handled := [], closed := true,
        teardown := [TAction.signalScheduler, TAction.invokeClose],
        cause := some StopCause.readError }
  | ReadEvent.recv pk :: rest =>
      if (handlePacket pk).isErr then
        { handled := [], closed := true,
          teardown := [TAction.signalScheduler, TAction.invokeClose],
          cause := some StopCause.handlerError }
      else
        let o := handlePackets rest
        { o with handled := pk :: o.handled }

/-- A read result that terminates the loop: a failed read, or a packet whose
handler errors. -/
def isFailure : ReadEvent → Bool
  | ReadEvent.readErr => true
  | ReadEvent.recv pk => (handlePacket pk).isErr

/-- The packet carried by a read result, when there is one. -/
def eventPacket : ReadEvent → Option InPacket
  | ReadEvent.recv pk => some pk
  | ReadEvent.readErr => none

/-- The stop cause a terminating read result produces. -/
def causeOf : ReadEvent → StopCause
  | ReadEvent.readErr => StopCause.readError
  | ReadEvent.recv _ => StopCause.handlerError

/-- One wakeup of the sendChunks select: a ticker fire together with the
success of the Load call it triggers, or the rendezvous stop signal. -/
inductive SchedEvent where
  | tick (loadOk : Bool)
  | stop
  deriving DecidableEq, Repr

/-- Observable state of the sendChunks loop. -/
structure SchedState where
  running : Bool
  loadsAttempted : Nat
  loadsSucceeded : Nat
  failuresLogged : Nat
  deriving DecidableEq, Repr

/-- Initial state of the sendChunks loop. -/
def schedInit : SchedState :=
  { running := true, loadsAttempted := 0, loadsSucceeded := 0, failuresLogged := 0 }

/-- One iteration of sendChunks (session.go lines 153 to 169): a tick asks the
loader for up to 4 chunks; when the load fails the error is logged and the
iteration merely continues; the stop signal returns from the loop, after which
nothing further happens. -/
def sendChunksStep (st : SchedState) (e : SchedEvent) : SchedState :=
  if st.running then
    match e with
    | SchedEvent.tick ok =>
        { st with loadsAttempted := st.loadsAttempted + 1,
                  loadsSucceeded := st.loadsSucceeded + (if ok then 1 else 0),
                  failuresLogged := st.failuresLogged + (if ok then 0 else 1) }
    | SchedEvent.stop => { st with running := false }
  else st

/-- The sendChunks loop run over a finite sequence of wakeups. -/
def sendChunksRun (evs : List SchedEvent) : SchedState :=
  evs.foldl sendChunksStep schedInit

/-- A tick event whose load fails. -/
def isFailedTick : SchedEvent → Bool
  | SchedEvent.tick ok => !ok
  | SchedEvent.stop => false

/-- A tick event whose load succeeds. -/
def isOkTick : SchedEvent → Bool
  | SchedEvent.tick ok => ok
  | SchedEvent.stop => false

/-- Observable state of a session as a packet writer: whether it is the Nop
sentinel (session.go line 48), and the packets handed to conn.WritePacket so
far. -/
structure WState where
  isNop : Bool
  attempted : List Nat
  deriving DecidableEq, Repr

/-- writePacket (session.go lines 190 to 196): when the session is the Nop
sentinel the packet is dropped and the connection is never touched; otherwise
the packet is handed to conn.WritePacket and the error result of that write,
represented here by the writeFails argument, is discarded. -/
def writePacket (s : WState) (writeFails : Bool) (pk : Nat) : WState :=
  if s.isNop then s
  else
    let _ := writeFails
    { s with attempted := s.attempted ++ [pk] }

/-- selfEntityRuntimeID (session.go line 56). -/
def selfEntityRuntimeID : Nat := 1

/-- Per-session state (struct Session, session.go lines 20 to 45). The
connection, world, loader, logger and controllable are external collaborators;
only the facts the session mutates about them are kept: whether the
controllable, the connection and the loader have been closed, and whether the
controllable is registered in the world. stopCalls counts invocations of the
recorded stop callback. playerList is the presence list the specification
attributes to each session. -/
structure Session where
  controllable : Nat
  chunkRadius : Int
  maxChunkRadius : Int
  currentEntityRuntimeID : Nat
  entityRuntimeIDs : List (Nat × Nat)
  onStop : Bool
  stopCalls : Nat
  playerList : List Nat
  cClosed : Bool
  connClosed : Bool
  loaderClosed : Bool
  inWorld : Bool
  deriving DecidableEq, Repr

/-- New (session.go lines 62 to 81): a fresh session controlling entity c,
with the entity-handle map holding the controllable at the reserved handle 1,
the handle counter at 1, and the chunk radius at half the maximum (Go integer
division truncates). -/
def Session.new (c : Nat) (maxChunkRadius : Int) : Session :=
  { controllable := c
    chunkRadius := maxChunkRadius.tdiv 2
    maxChunkRadius := maxChunkRadius
    currentEntityRuntimeID := 1
    entityRuntimeIDs := [(c, selfEntityRuntimeID)]
    onStop := false
    stopCalls := 0
    playerList := []
    cClosed := false
    connClosed := false
    loaderClosed := false
    inWorld := false }

/-- Modelled from the spec: HandleFor is not under src (only the map and the
counter it drives are, in struct Session). Per section 4.3 it returns the
existing handle of the entity or, when the entity is absent, allocates the
next counter value, stores it and returns it. -/
def Session.handleFor (s : Session) (e : Nat) : Session × Nat :=
  match s.entityRuntimeIDs.lookup e with
  | some id => (s, id)
  | none =>
      let id := s.currentEntityRuntimeID + 1
      ({ s with currentEntityRuntimeID := id,
                entityRuntimeIDs := s.entityRuntimeIDs ++ [(e, id)] }, id)

/-- Modelled from the spec: Forget is not under src. Per section 4.3 it
removes the mapping of an entity that permanently left the awareness of the
session; absence is not an error. -/
def Session.forget (s : Session) (e : Nat) : Session :=
  { s with entityRuntimeIDs := s.entityRuntimeIDs.filter (fun p => p.1 != e) }

/-- A registry operation: look up or allocate a handle, or forget an
entity. -/
inductive RegOp where
  | handle (e : Nat)
  | forget (e : Nat)
  deriving DecidableEq, Repr

/-- Apply one registry operation. -/
def applyOp (s : Session) : RegOp → Session
  | RegOp.handle e => (s.handleFor e).1
  | RegOp.forget e => s.forget e

/-- Apply a sequence of registry operations. -/
def applyOps (s : Session) (ops : List RegOp) : Session := ops.foldl applyOp s

/-- Process-wide state: the global sessions slice (session.go line 52) and the
state of every session, addressed by session id. -/
structure GState where
  sessions : List Nat
  tbl : Nat → Session

/-- Replace the state of session i by f applied to it. -/
def GState.updTbl (g : GState) (i : Nat) (f : Session → Session) : GState :=
  { g with tbl := fun k => if k = i then f (g.tbl k) else g.tbl k }

/-- Modelled from the spec: addToPlayerList is not under src. Per section 4.5
an introduction makes one session aware of another, after which the presence
list of the told session contains the other; introducing an already-listed
session changes nothing, so a list that has been told about N distinct
sessions has exactly N entries. -/
def addPL (l : List Nat) (x : Nat) : List Nat := if x ∈ l then l else l ++ [x]

/-- Modelled from the spec: session i is told about session j. -/
def GState.addToPlayerList (g : GState) (i j : Nat) : GState :=
  g.updTbl i (fun s => { s with playerList := addPL s.playerList j })

/-- Modelled from the spec: removeFromPlayerList is not under src; session i
drops session j from its presence list. -/
def GState.removeFromPlayerList (g : GState) (i j : Nat) : GState :=
  g.updTbl i (fun s => { s with playerList := s.playerList.filter (fun x => x != j) })

/-- One iteration of the initPlayerList loop: the pairwise introduction of the
joiner s and an existing session i, both ways. -/
def introStep (s : Nat) (g : GState) (i : Nat) : GState :=
  (g.addToPlayerList i s).addToPlayerList s i

/-- One iteration of the closePlayerList loop: session i drops the departing
session s. -/
def removeStep (s : Nat) (g : GState) (i : Nat) : GState :=
  g.removeFromPlayerList i s

/-- initPlayerList (session.go lines 200 to 210): under the directory lock,
append the joining session to the global slice, then for every session in the
slice (the joiner included) perform the pairwise introduction both ways. -/
def GState.initPlayerList (g : GState) (s : Nat) : GState :=
  let g1 : GState := { g with sessions := g.sessions ++ [s] }
  g1.sessions.foldl (introStep s) g1

/-- closePlayerList (session.go lines 214 to 226): under the directory lock,
rebuild the global slice without the departing session while dropping it from
the presence list of every session in the slice. The replacement slice is
allocated with capacity len(sessions)-1; when the slice is empty that capacity
is negative and the allocation panics, modelled as none. -/
def GState.closePlayerList (g : GState) (s : Nat) : Option GState :=
  if g.sessions.isEmpty then none
  else
    let g1 := g.sessions.foldl (removeStep s) g
    some { g1 with sessions := g.sessions.filter (fun x => x != s) }

/-- The opening effects of Close on the closing session (session.go lines 102
to 105): close the controllable, the connection and the loader, and remove the
controllable from the world. -/
def closeFlags (ss : Session) : Session :=
  { ss with cClosed := true, connClosed := true, loaderClosed := true, inWorld := false }

/-- Clearing the entity-handle map during Close (session.go lines 113 to
115). -/
def clearEntityIDs (ss : Session) : Session := { ss with entityRuntimeIDs := [] }

/-- The stop-callback invocation of Close (session.go lines 117 to 120): when
a callback is recorded it is invoked and the reference cleared, so it runs at
most once. -/
def fireOnStop (ss : Session) : Session :=
  if ss.onStop then { ss with onStop := false, stopCalls := ss.stopCalls + 1 } else ss

/-- Close (session.go lines 101 to 122): close the controllable, the
connection and the loader, remove the controllable from the world, run
closePlayerList, clear the entity-handle map, then invoke the stop callback
and clear it so it runs at most once. The closePlayerList panic aborts the
sequence. -/
def GState.close (g : GState) (s : Nat) : Option GState :=
  let g0 := g.updTbl s closeFlags
  (g0.closePlayerList s).map (fun g1 =>
    (g1.updTbl s clearEntityIDs).updTbl s fireOnStop)

/-- Start (session.go lines 86 to 97), the parts that bear on session state:
record the stop callback, run initPlayerList, and register the controllable in
the world; the read loop is then launched as a separate activity. -/
def GState.start (g : GState) (s : Nat) : GState :=
  let g1 := g.updTbl s (fun ss => { ss with onStop := true })
  let g2 := g1.initPlayerList s
  g2.updTbl s (fun ss => { ss with inWorld := true })

/-- Join a list of sessions in order through initPlayerList. -/
def joinAll (g : GState) (L : List Nat) : GState := L.foldl GState.initPlayerList g

/-- A directory with no session joined; every session id maps to a fresh
session controlling an entity of the same id, with maximum radius 8. -/
def gEmpty : GState := { sessions := [], tbl := fun i => Session.new i 8 }

/-- One session, id 0, started alone. -/
def gOne : GState := gEmpty.start 0

/-- Two sessions, ids 0 and 1, started in order. -/
def gTwo : GState := (gEmpty.start 0).start 1

/-- The registry invariant of section 3 of the spec: the controllable is
mapped to the reserved handle 1, every handle is at most the counter, every
handle of another entity exceeds 1, no handle is shared by two entities, and
the counter is at least 1. -/
def EntInv (c : Nat) (s : Session) : Prop :=
  s.entityRuntimeIDs.lookup c = some 1 ∧
  (∀ p ∈ s.entityRuntimeIDs, p.2 ≤ s.currentEntityRuntimeID) ∧
  (∀ p ∈ s.entityRuntimeIDs, p.1 ≠ c → 1 < p.2) ∧
  (∀ p ∈ s.entityRuntimeIDs, ∀ q ∈ s.entityRuntimeIDs, p.2 = q.2 → p.1 = q.1) ∧
  1 ≤ s.currentEntityRuntimeID

/-! ### Helper lemmas: read loop and scheduler -/

theorem handlePackets_spec (evs : List ReadEvent) :
    (handlePackets evs).closed = evs.any isFailure ∧
    (handlePackets evs).teardown =
      (if evs.any isFailure then [TAction.signalScheduler, TAction.invokeClose] else []) ∧
    (handlePackets evs).cause = (evs.find? isFailure).map causeOf ∧
    (handlePackets evs).handled =
      (evs.takeWhile (fun e => !isFailure e)).filterMap eventPacket := by
  induction evs with
  | nil => simp [handlePackets]
  | cons e es ih =>
    cases e with
    | readErr =>
        simp [handlePackets, isFailure, List.find?, causeOf, List.takeWhile]
    | recv pk =>
        by_cases hp : (handlePacket pk).isErr = true
        · simp [handlePackets, hp, isFailure, List.find?, causeOf, List.takeWhile]
        · have hp2 : (handlePacket pk).isErr = false := by
            cases h : (handlePacket pk).isErr
            · rfl
            · exact absurd h hp
          simp [handlePackets, hp2, isFailure, List.find?, List.takeWhile,
            eventPacket, ih.1, ih.2.1, ih.2.2.1, ih.2.2.2]

theorem sendChunksStep_halted (st : SchedState) (e : SchedEvent)
    (h : st.running = false) : sendChunksStep st e = st := by
  simp [sendChunksStep, h]

theorem sendChunksFold_halted (evs : List SchedEvent) (st : SchedState)
    (h : st.running = false) : evs.foldl sendChunksStep st = st := by
  induction evs with
  | nil => rfl
  | cons e es ih =>
      rw [List.foldl_cons, sendChunksStep_halted st e h]
      exact ih

theorem sendChunksFold_no_stop (evs : List SchedEvent) :
    ∀ st : SchedState, SchedEvent.stop ∉ evs → st.running = true →
    (evs.foldl sendChunksStep st).running = true ∧
    (evs.foldl sendChunksStep st).loadsAttempted = st.loadsAttempted + evs.length ∧
    (evs.foldl sendChunksStep st).loadsSucceeded =
      st.loadsSucceeded + (evs.filter isOkTick).length ∧
    (evs.foldl sendChunksStep st).failuresLogged =
      st.failuresLogged + (evs.filter isFailedTick).length := by
  induction evs with
  | nil => intro st _ hrun; simp [hrun]
  | cons e es ih =>
    intro st hstop hrun
    cases e with
    | stop => exact absurd (List.mem_cons_self _ _) hstop
    | tick ok =>
      rw [List.foldl_cons]
      have hstop2 : SchedEvent.stop ∉ es := fun hm => hstop (List.mem_cons_of_mem _ hm)
      have hrun2 : (sendChunksStep st (SchedEvent.tick ok)).running = true := by
        simp [sendChunksStep, hrun]
      have h := ih (sendChunksStep st (SchedEvent.tick ok)) hstop2 hrun2
      refine ⟨h.1, ?_, ?_, ?_⟩
      · rw [h.2.1]
        simp [sendChunksStep, hrun, List.length_cons]
        omega
      · rw [h.2.2.1]
        cases ok <;> (simp [sendChunksStep, hrun, isOkTick, List.filter_cons]; try omega)
      · rw [h.2.2.2]
        cases ok <;> (simp [sendChunksStep, hrun, isFailedTick, List.filter_cons]; try omega)

theorem sendChunksStep_stop_running (st : SchedState) :
    (sendChunksStep st SchedEvent.stop).running = false := by
  cases hr : st.running <;> simp [sendChunksStep, hr]

theorem sendChunksRun_stop_absorb (evs1 evs2 : List SchedEvent) :
    sendChunksRun (evs1 ++ SchedEvent.stop :: evs2) =
      sendChunksRun (evs1 ++ [SchedEvent.stop]) ∧
    (sendChunksRun (evs1 ++ SchedEvent.stop :: evs2)).running = false := by
  have h1 : sendChunksRun (evs1 ++ SchedEvent.stop :: evs2) =
      evs2.foldl sendChunksStep
        (sendChunksStep (evs1.foldl sendChunksStep schedInit) SchedEvent.stop) := by
    simp [sendChunksRun, List.foldl_append]
  have h2 : sendChunksRun (evs1 ++ [SchedEvent.stop]) =
      sendChunksStep (evs1.foldl sendChunksStep schedInit) SchedEvent.stop := by
    simp [sendChunksRun, List.foldl_append]
  have hhalted := sendChunksStep_stop_running (evs1.foldl sendChunksStep schedInit)
  constructor
  · rw [h1, h2, sendChunksFold_halted _ _ hhalted]
  · rw [h1, sendChunksFold_halted _ _ hhalted]
    exact hhalted

/-! ### Claim theorems: dispatcher, scheduler, write guard -/

/-- C6: the packet read loop reads one message at a time; a read error stops
the loop and runs the full close sequence, a successful read is dispatched by
kind through handlePacket, and a handler error is logged, stops the loop and
runs the full close sequence. Hence the loop terminates, with Close run, if
and only if a read error or a handler error occurs; the dispatched packets are
exactly those read before the first failure, and the recorded cause is that of
the first failing read result. -/
theorem read_loop_terminates_iff_failure (evs : List ReadEvent) :
    ((handlePackets evs).closed = true ↔ evs.any isFailure = true) ∧
    (handlePackets evs).cause = (evs.find? isFailure).map causeOf ∧
    (handlePackets evs).handled =
      (evs.takeWhile (fun e => !isFailure e)).filterMap eventPacket := by
  have h := handlePackets_spec evs
  exact ⟨by rw [h.1], h.2.2.1, h.2.2.2⟩

/-- C5: a failed chunk load is logged and its tick skipped, but the scheduler
keeps running and attempts every subsequent tick; it never closes the session,
which stays open until the read loop sees a transport read failure or a
handler error. -/
theorem failed_load_skips_tick_only (evs : List SchedEvent) (revs : List ReadEvent)
    (hstop : SchedEvent.stop ∉ evs) (hok : revs.any isFailure = false) :
    (sendChunksRun evs).running = true ∧
    (sendChunksRun evs).loadsAttempted = evs.length ∧
    (sendChunksRun evs).loadsSucceeded = (evs.filter isOkTick).length ∧
    (sendChunksRun evs).failuresLogged = (evs.filter isFailedTick).length ∧
    (handlePackets revs).closed = false := by
  have h := sendChunksFold_no_stop evs schedInit hstop rfl
  have h2 := (handlePackets_spec revs).1
  refine ⟨h.1, ?_, ?_, ?_, ?_⟩
  · simp only [sendChunksRun]; rw [h.2.1]; simp [schedInit]
  · simp only [sendChunksRun]; rw [h.2.2.1]; simp [schedInit]
  · simp only [sendChunksRun]; rw [h.2.2.2]; simp [schedInit]
  · rw [h2, hok]

/-- Witness for C5 at a concrete trace: two ticks, the first failing, and one
healthy inbound text packet. -/
theorem failed_load_skips_tick_only_witness :
    (sendChunksRun [SchedEvent.tick false, SchedEvent.tick true]).running = true ∧
    (sendChunksRun [SchedEvent.tick false, SchedEvent.tick true]).loadsAttempted =
      [SchedEvent.tick false, SchedEvent.tick true].length ∧
    (sendChunksRun [SchedEvent.tick false, SchedEvent.tick true]).loadsSucceeded =
      ([SchedEvent.tick false, SchedEvent.tick true].filter isOkTick).length ∧
    (sendChunksRun [SchedEvent.tick false, SchedEvent.tick true]).failuresLogged =
      ([SchedEvent.tick false, SchedEvent.tick true].filter isFailedTick).length ∧
    (handlePackets [ReadEvent.recv { kind := PacketKind.text, handlerFails := false }]).closed
      = false :=
  failed_load_skips_tick_only [SchedEvent.tick false, SchedEvent.tick true]
    [ReadEvent.recv { kind := PacketKind.text, handlerFails := false }]
    (by decide) (by decide)

/-- C8: whenever the read loop terminates it performs its deferred teardown in
order, the rendezvous stop signal strictly before invoking Close; and once the
scheduler receives the stop signal it has returned, so events after the stop
change nothing and in particular no further load is attempted. -/
theorem rendezvous_stops_scheduler_before_close (revs : List ReadEvent)
    (evs1 evs2 : List SchedEvent)
    (hterm : (handlePackets revs).closed = true) :
    (handlePackets revs).teardown = [TAction.signalScheduler, TAction.invokeClose] ∧
    sendChunksRun (evs1 ++ SchedEvent.stop :: evs2) =
      sendChunksRun (evs1 ++ [SchedEvent.stop]) ∧
    (sendChunksRun (evs1 ++ SchedEvent.stop :: evs2)).running = false ∧
    (sendChunksRun (evs1 ++ SchedEvent.stop :: evs2)).loadsAttempted =
      (sendChunksRun (evs1 ++ [SchedEvent.stop])).loadsAttempted := by
  have h := handlePackets_spec revs
  have habs := sendChunksRun_stop_absorb evs1 evs2
  have hany : revs.any isFailure = true := by rw [← h.1]; exact hterm
  refine ⟨?_, habs.1, habs.2, by rw [habs.1]⟩
  rw [h.2.1, hany]
  rfl

/-- Witness for C8 at a concrete trace: a read error terminates the loop; one
tick happens before the stop signal and one after. -/
theorem rendezvous_stops_scheduler_before_close_witness :
    (handlePackets [ReadEvent.readErr]).teardown =
      [TAction.signalScheduler, TAction.invokeClose] ∧
    sendChunksRun ([SchedEvent.tick true] ++ SchedEvent.stop :: [SchedEvent.tick true]) =
      sendChunksRun ([SchedEvent.tick true] ++ [SchedEvent.stop]) ∧
    (sendChunksRun ([SchedEvent.tick true] ++ SchedEvent.stop :: [SchedEvent.tick true])).running
      = false ∧
    (sendChunksRun
        ([SchedEvent.tick true] ++ SchedEvent.stop :: [SchedEvent.tick true])).loadsAttempted =
      (sendChunksRun ([SchedEvent.tick true] ++ [SchedEvent.stop])).loadsAttempted :=
  rendezvous_stops_scheduler_before_close [ReadEvent.readErr]
    [SchedEvent.tick true] [SchedEvent.tick true] (by decide)

/-- C7: every inbound packet whose kind is none of the five kinds known at the
session boundary is dispatched without error and logged at debug severity,
and the ignorable administrative kind BossEvent is accepted silently, with no
error and no log. -/
theorem unknown_kind_logged_not_error (pk : InPacket)
    (h : pk.kind ∉ [PacketKind.text, PacketKind.commandRequest, PacketKind.movePlayer,
      PacketKind.requestChunkRadius, PacketKind.bossEvent]) :
    handlePacket pk = { isErr := false, debugLogged := true } ∧
    (∀ b : Bool, handlePacket { kind := PacketKind.bossEvent, handlerFails := b } =
      { isErr := false, debugLogged := false }) := by
  refine ⟨?_, fun b => rfl⟩
  cases pk with
  | mk kind fails =>
    cases kind with
    | text => simp at h
    | commandRequest => simp at h
    | movePlayer => simp at h
    | requestChunkRadius => simp at h
    | bossEvent => simp at h
    | unknown tag => rfl

/-- Witness for C7 at a concrete unrecognized packet. -/
theorem unknown_kind_logged_not_error_witness :
    handlePacket { kind := PacketKind.unknown 3, handlerFails := true } =
      { isErr := false, debugLogged := true } ∧
    (∀ b : Bool, handlePacket { kind := PacketKind.bossEvent, handlerFails := b } =
      { isErr := false, debugLogged := false }) :=
  unknown_kind_logged_not_error { kind := PacketKind.unknown 3, handlerFails := true }
    (by decide)

/-- C9: the outbound send primitive is a guarded write that reports no error
to its caller: on the Nop sentinel the packet is dropped and the connection is
never touched; otherwise the packet is handed to the connection, and the
result is the same whether or not the underlying write fails. -/
theorem write_guarded_no_error (s : WState) (l : List Nat) (f : Bool) (pk : Nat) :
    writePacket { isNop := true, attempted := l } f pk =
      { isNop := true, attempted := l } ∧
    writePacket s true pk = writePacket s false pk ∧
    writePacket { isNop := false, attempted := l } f pk =
      { isNop := false, attempted := l ++ [pk] } := by
  refine ⟨rfl, ?_, rfl⟩
  cases hn : s.isNop <;> simp [writePacket, hn]

/-- C10: Close invoked while the global session slice is empty panics inside
closePlayerList, which allocates the replacement slice with negative capacity
len(sessions)-1; Close does not complete. -/
theorem close_on_empty_directory_panics (g : GState) (s : Nat)
    (h : g.sessions = []) : g.close s = none := by
  simp [GState.close, GState.closePlayerList, GState.updTbl, h]

/-- Witness for C10: Close on the empty directory. -/
theorem close_on_empty_directory_panics_witness : gEmpty.close 0 = none :=
  close_on_empty_directory_panics gEmpty 0 rfl

/-! ### Helper lemmas: entity-handle registry -/

theorem lookup_append_some (l l2 : List (Nat × Nat)) (c v : Nat)
    (h : l.lookup c = some v) : (l ++ l2).lookup c = some v := by
  induction l with
  | nil => simp [List.lookup] at h
  | cons p ps ih =>
    obtain ⟨k, b⟩ := p
    rw [List.cons_append]
    rw [List.lookup_cons] at h ⊢
    cases hck : (c == k) with
    | true => simp only [hck] at h ⊢; exact h
    | false => simp only [hck] at h ⊢; exact ih h

theorem lookup_filter_ne (l : List (Nat × Nat)) (c e : Nat) (hne : c ≠ e) :
    (l.filter (fun p => p.1 != e)).lookup c = l.lookup c := by
  induction l with
  | nil => rfl
  | cons p ps ih =>
    obtain ⟨k, b⟩ := p
    by_cases hk : k = e
    · subst hk
      have hck : (c == k) = false := beq_eq_false_iff_ne.2 hne
      simp [List.filter_cons, List.lookup_cons, hck, ih]
    · have hke : ((k : Nat) != e) = true := bne_iff_ne.2 hk
      simp only [List.filter_cons, hke, if_true, List.lookup_cons]
      cases hck : (c == k) with
      | true => simp only [hck]
      | false => simp only [hck]; exact ih

theorem entInv_new (c : Nat) (m : Int) : EntInv c (Session.new c m) := by
  refine ⟨?_, ?_, ?_, ?_, ?_⟩ <;>
    simp [Session.new, selfEntityRuntimeID, List.lookup_cons, EntInv]

theorem entInv_extend (c e : Nat) (s : Session)
    (h : EntInv c s) (_hl : s.entityRuntimeIDs.lookup e = none) :
    EntInv c { s with
      currentEntityRuntimeID := s.currentEntityRuntimeID + 1,
      entityRuntimeIDs := s.entityRuntimeIDs ++ [(e, s.currentEntityRuntimeID + 1)] } := by
  obtain ⟨h1, h2, h3, h4, h5⟩ := h
  refine ⟨?_, ?_, ?_, ?_, ?_⟩
  · exact lookup_append_some _ _ _ _ h1
  · intro p hp
    rcases List.mem_append.1 hp with hp1 | hp2
    · exact Nat.le_trans (h2 p hp1) (Nat.le_succ _)
    · have hpe : p = (e, s.currentEntityRuntimeID + 1) := by simpa using hp2
      simp [hpe]
  · intro p hp hpc
    rcases List.mem_append.1 hp with hp1 | hp2
    · exact h3 p hp1 hpc
    · have hpe : p = (e, s.currentEntityRuntimeID + 1) := by simpa using hp2
      rw [hpe]
      exact Nat.lt_succ_of_le h5
  · intro p hp q hq heq
    rcases List.mem_append.1 hp with hp1 | hp2 <;> rcases List.mem_append.1 hq with hq1 | hq2
    · exact h4 p hp1 q hq1 heq
    · exfalso
      have hqe : q = (e, s.currentEntityRuntimeID + 1) := by simpa using hq2
      have := h2 p hp1
      rw [hqe] at heq
      simp at heq
      omega
    · exfalso
      have hpe : p = (e, s.currentEntityRuntimeID + 1) := by simpa using hp2
      have := h2 q hq1
      rw [hpe] at heq
      simp at heq
      omega
    · have hpe : p = (e, s.currentEntityRuntimeID + 1) := by simpa using hp2
      have hqe : q = (e, s.currentEntityRuntimeID + 1) := by simpa using hq2
      rw [hpe, hqe]
  · exact Nat.le_trans h5 (Nat.le_succ _)

theorem entInv_handleFor (c e : Nat) (s : Session) (h : EntInv c s) :
    EntInv c (s.handleFor e).1 ∧
    s.currentEntityRuntimeID ≤ (s.handleFor e).1.currentEntityRuntimeID := by
  cases hl : s.entityRuntimeIDs.lookup e with
  | some id =>
      have hs : (s.handleFor e).1 = s := by simp [Session.handleFor, hl]
      rw [hs]
      exact ⟨h, Nat.le_refl _⟩
  | none =>
      have hs : (s.handleFor e).1 =
          { s with
            currentEntityRuntimeID := s.currentEntityRuntimeID + 1,
            entityRuntimeIDs := s.entityRuntimeIDs ++ [(e, s.currentEntityRuntimeID + 1)] } := by
        simp [Session.handleFor, hl]
      rw [hs]
      exact ⟨entInv_extend c e s h hl, Nat.le_succ _⟩

theorem entInv_forget (c e : Nat) (s : Session) (h : EntInv c s) (hne : e ≠ c) :
    EntInv c (s.forget e) := by
  obtain ⟨h1, h2, h3, h4, h5⟩ := h
  refine ⟨?_, ?_, ?_, ?_, ?_⟩
  · exact (lookup_filter_ne _ _ _ (Ne.symm hne)).trans h1
  · intro p hp
    exact h2 p (List.mem_filter.1 hp).1
  · intro p hp
    exact h3 p (List.mem_filter.1 hp).1
  · intro p hp q hq
    exact h4 p (List.mem_filter.1 hp).1 q (List.mem_filter.1 hq).1
  · exact h5

theorem counter_mono_applyOp (s : Session) (op : RegOp) :
    s.currentEntityRuntimeID ≤ (applyOp s op).currentEntityRuntimeID := by
  cases op with
  | handle e =>
      cases hl : s.entityRuntimeIDs.lookup e with
      | some id => simp [applyOp, Session.handleFor, hl]
      | none => simp [applyOp, Session.handleFor, hl]
  | forget e => exact Nat.le_refl _

theorem counter_mono_applyOps (s : Session) (ops : List RegOp) :
    s.currentEntityRuntimeID ≤ (applyOps s ops).currentEntityRuntimeID := by
  induction ops generalizing s with
  | nil => exact Nat.le_refl _
  | cons op rest ih =>
      simp only [applyOps, List.foldl_cons]
      exact Nat.le_trans (counter_mono_applyOp s op) (ih (applyOp s op))

theorem entInv_applyOps (c : Nat) (s : Session) (ops : List RegOp)
    (h : EntInv c s) (hops : RegOp.forget c ∉ ops) : EntInv c (applyOps s ops) := by
  induction ops generalizing s with
  | nil => exact h
  | cons op rest ih =>
      have hops2 : RegOp.forget c ∉ rest := fun hm => hops (List.mem_cons_of_mem _ hm)
      have hstep : EntInv c (applyOp s op) := by
        cases op with
        | handle e => exact (entInv_handleFor c e s h).1
        | forget e =>
            have hec : e ≠ c := by
              intro he
              subst he
              exact hops (List.mem_cons_self _ _)
            exact entInv_forget c e s h hec
      simp only [applyOps, List.foldl_cons]
      exact ih (applyOp s op) hstep hops2

/-- C2: starting from New, after any sequence of registry operations that
never forgets the controllable, the entity-handle map maps the controllable to
the reserved handle 1, every other handle exceeds 1, no handle is shared by
two entities, and a handle freshly allocated at any later point is strictly
greater than every handle ever assigned before, so handles are strictly
increasing and never reused even after the entity was forgotten. -/
theorem entity_handle_registry (c : Nat) (m : Int) (ops ops2 : List RegOp)
    (ent hv e : Nat)
    (hnc : RegOp.forget c ∉ ops)
    (hmem : (ent, hv) ∈ (applyOps (Session.new c m) ops).entityRuntimeIDs)
    (hfresh : (applyOps (Session.new c m) (ops ++ ops2)).entityRuntimeIDs.lookup e = none) :
    (applyOps (Session.new c m) ops).entityRuntimeIDs.lookup c = some 1 ∧
    (ent ≠ c → 1 < hv) ∧
    (∀ ent2 : Nat,
      (ent2, hv) ∈ (applyOps (Session.new c m) ops).entityRuntimeIDs → ent2 = ent) ∧
    hv < ((applyOps (Session.new c m) (ops ++ ops2)).handleFor e).2 := by
  obtain ⟨h1, h2, h3, h4, h5⟩ := entInv_applyOps c (Session.new c m) ops (entInv_new c m) hnc
  refine ⟨h1, fun hne => h3 _ hmem hne, ?_, ?_⟩
  · intro ent2 hm2
    exact h4 _ hm2 _ hmem rfl
  · have hle : hv ≤ (applyOps (Session.new c m) ops).currentEntityRuntimeID := h2 _ hmem
    have happ : applyOps (Session.new c m) (ops ++ ops2) =
        applyOps (applyOps (Session.new c m) ops) ops2 := by
      simp [applyOps, List.foldl_append]
    have hmono : (applyOps (Session.new c m) ops).currentEntityRuntimeID ≤
        (applyOps (Session.new c m) (ops ++ ops2)).currentEntityRuntimeID := by
      rw [happ]
      exact counter_mono_applyOps _ ops2
    have hfid : ((applyOps (Session.new c m) (ops ++ ops2)).handleFor e).2 =
        (applyOps (Session.new c m) (ops ++ ops2)).currentEntityRuntimeID + 1 := by
      simp [Session.handleFor, hfresh]
    rw [hfid]
    omega

/-- Witness for C2 at a concrete run: entity 7 receives handle 2, is
forgotten, and the next fresh allocation exceeds 2. -/
theorem entity_handle_registry_witness :
    (applyOps (Session.new 5 8) [RegOp.handle 7]).entityRuntimeIDs.lookup 5 = some 1 ∧
    ((7 : Nat) ≠ 5 → (1 : Nat) < 2) ∧
    (∀ ent2 : Nat,
      (ent2, 2) ∈ (applyOps (Session.new 5 8) [RegOp.handle 7]).entityRuntimeIDs → ent2 = 7) ∧
    (2 : Nat) < ((applyOps (Session.new 5 8) ([RegOp.handle 7] ++ [RegOp.forget 7])).handleFor 7).2 :=
  entity_handle_registry 5 8 [RegOp.handle 7] [RegOp.forget 7] 7 2 7
    (by decide) (by decide) (by decide)

/-! ### Helper lemmas: presence directory -/

theorem gstate_eq (g g2 : GState) (hs : g.sessions = g2.sessions)
    (ht : ∀ i, g.tbl i = g2.tbl i) : g = g2 := by
  cases g with
  | mk s1 t1 =>
    cases g2 with
    | mk s2 t2 =>
      have htt : t1 = t2 := funext ht
      simp_all

theorem updTbl_sessions (g : GState) (i : Nat) (f : Session → Session) :
    (g.updTbl i f).sessions = g.sessions := rfl

theorem updTbl_tbl_self (g : GState) (i : Nat) (f : Session → Session) :
    (g.updTbl i f).tbl i = f (g.tbl i) := by
  simp [GState.updTbl]

theorem updTbl_tbl_ne (g : GState) (i k : Nat) (f : Session → Session)
    (h : k ≠ i) : (g.updTbl i f).tbl k = g.tbl k := by
  simp [GState.updTbl, h]

theorem updTbl_id (g : GState) (i : Nat) (f : Session → Session)
    (h : f (g.tbl i) = g.tbl i) : g.updTbl i f = g := by
  apply gstate_eq
  · rfl
  · intro k
    by_cases hk : k = i
    · subst hk
      simp [GState.updTbl, h]
    · simp [GState.updTbl, hk]

theorem filter_ne_eq_self (l : List Nat) (s : Nat) (h : s ∉ l) :
    l.filter (fun x => x != s) = l := by
  apply List.filter_eq_self.2
  intro a ha
  exact bne_iff_ne.2 (fun he => h (he ▸ ha))

theorem length_filter_ne (l : List Nat) (s : Nat) :
    ∀ _ : s ∈ l, l.Nodup → (l.filter (fun x => x != s)).length + 1 = l.length := by
  induction l with
  | nil => intro hs; cases hs
  | cons a as ih =>
    intro hs hnd
    rcases List.mem_cons.1 hs with h1 | h1
    · subst h1
      have hna : s ∉ as := (List.nodup_cons.1 hnd).1
      simp [List.filter_cons, filter_ne_eq_self as s hna]
    · have hnd2 : as.Nodup := (List.nodup_cons.1 hnd).2
      have hsa : s ≠ a := fun he => (List.nodup_cons.1 hnd).1 (he ▸ h1)
      have has : ((a : Nat) != s) = true := bne_iff_ne.2 (Ne.symm hsa)
      simp only [List.filter_cons, has, if_true, List.length_cons]
      rw [← ih h1 hnd2]

theorem removeStep_tbl_self (g : GState) (s i : Nat) :
    ((removeStep s g i).tbl i) =
      { g.tbl i with playerList := (g.tbl i).playerList.filter (fun x => x != s) } := by
  simp [removeStep, GState.removeFromPlayerList, GState.updTbl]

theorem removeStep_tbl_ne (g : GState) (s i k : Nat) (h : k ≠ i) :
    (removeStep s g i).tbl k = g.tbl k := by
  simp [removeStep, GState.removeFromPlayerList, GState.updTbl, h]

theorem removeStep_sessions (g : GState) (s i : Nat) :
    (removeStep s g i).sessions = g.sessions := rfl

theorem foldRemove_sessions (L : List Nat) (s : Nat) :
    ∀ g : GState, (L.foldl (removeStep s) g).sessions = g.sessions := by
  induction L with
  | nil => intro g; rfl
  | cons a as ih =>
    intro g
    rw [List.foldl_cons, ih (removeStep s g a), removeStep_sessions]

theorem foldRemove_preserve (L : List Nat) (s i : Nat) :
    ∀ g : GState, s ∉ (g.tbl i).playerList →
      s ∉ ((L.foldl (removeStep s) g).tbl i).playerList := by
  induction L with
  | nil => intro g h; exact h
  | cons a as ih =>
    intro g h
    rw [List.foldl_cons]
    apply ih
    by_cases hia : i = a
    · subst hia
      rw [removeStep_tbl_self]
      simp [List.mem_filter]
    · rw [removeStep_tbl_ne g s a i hia]
      exact h

theorem foldRemove_not_mem (L : List Nat) (s i : Nat) :
    ∀ g : GState, i ∈ L → s ∉ ((L.foldl (removeStep s) g).tbl i).playerList := by
  induction L with
  | nil => intro g hi; cases hi
  | cons a as ih =>
    intro g hi
    rw [List.foldl_cons]
    by_cases hia : i ∈ as
    · exact ih _ hia
    · have hieq : i = a := by
        rcases List.mem_cons.1 hi with h1 | h1
        · exact h1
        · exact absurd h1 hia
      subst hieq
      apply foldRemove_preserve
      rw [removeStep_tbl_self]
      simp [List.mem_filter]

theorem foldRemove_fields (L : List Nat) (s i : Nat) :
    ∀ g : GState,
      ((L.foldl (removeStep s) g).tbl i).controllable = (g.tbl i).controllable ∧
      ((L.foldl (removeStep s) g).tbl i).entityRuntimeIDs = (g.tbl i).entityRuntimeIDs ∧
      ((L.foldl (removeStep s) g).tbl i).onStop = (g.tbl i).onStop ∧
      ((L.foldl (removeStep s) g).tbl i).stopCalls = (g.tbl i).stopCalls ∧
      ((L.foldl (removeStep s) g).tbl i).cClosed = (g.tbl i).cClosed ∧
      ((L.foldl (removeStep s) g).tbl i).connClosed = (g.tbl i).connClosed ∧
      ((L.foldl (removeStep s) g).tbl i).loaderClosed = (g.tbl i).loaderClosed ∧
      ((L.foldl (removeStep s) g).tbl i).inWorld = (g.tbl i).inWorld := by
  induction L with
  | nil => intro g; exact ⟨rfl, rfl, rfl, rfl, rfl, rfl, rfl, rfl⟩
  | cons a as ih =>
    intro g
    rw [List.foldl_cons]
    have h := ih (removeStep s g a)
    by_cases hia : i = a
    · subst hia
      rw [removeStep_tbl_self] at h
      simpa using h
    · rw [removeStep_tbl_ne g s a i hia] at h
      exact h

theorem removeFromPlayerList_id (g : GState) (i s : Nat)
    (h : s ∉ (g.tbl i).playerList) : g.removeFromPlayerList i s = g := by
  apply updTbl_id
  rw [filter_ne_eq_self _ _ h]

theorem foldRemove_id (L : List Nat) (s : Nat) :
    ∀ g : GState, (∀ i ∈ L, s ∉ (g.tbl i).playerList) →
      L.foldl (removeStep s) g = g := by
  induction L with
  | nil => intro g _; rfl
  | cons a as ih =>
    intro g h
    have ha : removeStep s g a = g :=
      removeFromPlayerList_id g a s (h a (List.mem_cons_self a as))
    rw [List.foldl_cons, ha]
    exact ih g (fun i hi => h i (List.mem_cons_of_mem a hi))

/-- C4: when a session leaves through closePlayerList on a duplicate-free
non-empty directory containing it, the rebuilt global slice is the old one
with the departing session excluded, its length drops by exactly one, every
other session keeps its membership, and the departing session is absent from
the presence list of every remaining session. -/
theorem presence_leave (g : GState) (s : Nat)
    (hs : s ∈ g.sessions) (hnd : g.sessions.Nodup) :
    ∃ g2, g.closePlayerList s = some g2 ∧
      g2.sessions = g.sessions.filter (fun x => x != s) ∧
      g2.sessions.length + 1 = g.sessions.length ∧
      s ∉ g2.sessions ∧
      (∀ i, i ≠ s → (i ∈ g2.sessions ↔ i ∈ g.sessions)) ∧
      (∀ i ∈ g2.sessions, s ∉ (g2.tbl i).playerList) := by
  have hne : g.sessions.isEmpty = false :=
    List.isEmpty_eq_false.2 (List.ne_nil_of_mem hs)
  refine ⟨{ g.sessions.foldl (removeStep s) g with
            sessions := g.sessions.filter (fun x => x != s) }, ?_, rfl, ?_, ?_, ?_, ?_⟩
  · simp [GState.closePlayerList, hne]
  · exact length_filter_ne g.sessions s hs hnd
  · simp [List.mem_filter]
  · intro i hi
    simp [List.mem_filter, bne_iff_ne, hi]
  · intro i hi
    have hig : i ∈ g.sessions := (List.mem_filter.1 hi).1
    exact foldRemove_not_mem g.sessions s i g hig

/-- Witness for C4: session 0 leaves the two-session directory. -/
theorem presence_leave_witness :
    ∃ g2, gTwo.closePlayerList 0 = some g2 ∧
      g2.sessions = gTwo.sessions.filter (fun x => x != 0) ∧
      g2.sessions.length + 1 = gTwo.sessions.length ∧
      0 ∉ g2.sessions ∧
      (∀ i, i ≠ 0 → (i ∈ g2.sessions ↔ i ∈ gTwo.sessions)) ∧
      (∀ i ∈ g2.sessions, 0 ∉ (g2.tbl i).playerList) :=
  presence_leave gTwo 0 (by decide) (by decide)

theorem addToPlayerList_sessions (g : GState) (i j : Nat) :
    (g.addToPlayerList i j).sessions = g.sessions := rfl

theorem addToPlayerList_tbl_self (g : GState) (i j : Nat) :
    (g.addToPlayerList i j).tbl i =
      { g.tbl i with playerList := addPL (g.tbl i).playerList j } := by
  simp [GState.addToPlayerList, GState.updTbl]

theorem addToPlayerList_tbl_ne (g : GState) (i j k : Nat) (h : k ≠ i) :
    (g.addToPlayerList i j).tbl k = g.tbl k := by
  simp [GState.addToPlayerList, GState.updTbl, h]

theorem addPL_not_mem (l : List Nat) (x : Nat) (h : x ∉ l) : addPL l x = l ++ [x] := by
  simp [addPL, h]

theorem addPL_mem (l : List Nat) (x : Nat) (h : x ∈ l) : addPL l x = l := by
  simp [addPL, h]

theorem introStep_sessions (s : Nat) (g : GState) (i : Nat) :
    (introStep s g i).sessions = g.sessions := rfl

theorem introFold (m : List Nat) (s : Nat) (full : List Nat) (hsf : s ∉ full) :
    ∀ g : GState, s ∉ m → m.Nodup →
      (∀ i ∈ m, (g.tbl i).playerList = full) →
      (∀ i ∈ m, i ∉ (g.tbl s).playerList) →
      (m.foldl (introStep s) g).sessions = g.sessions ∧
      (∀ i ∈ m, ((m.foldl (introStep s) g).tbl i).playerList = full ++ [s]) ∧
      ((m.foldl (introStep s) g).tbl s).playerList = (g.tbl s).playerList ++ m ∧
      (∀ j, j ∉ m → j ≠ s → (m.foldl (introStep s) g).tbl j = g.tbl j) := by
  induction m with
  | nil =>
    intro g _ _ _ _
    refine ⟨rfl, ?_, by simp, fun j _ _ => rfl⟩
    intro i hi
    cases hi
  | cons a as ih =>
    intro g hsm hnd hfull hdisj
    have hsa : s ≠ a := fun he => hsm (by rw [he]; exact List.mem_cons_self a as)
    have hsas : s ∉ as := fun hm => hsm (List.mem_cons_of_mem a hm)
    have haas : a ∉ as := (List.nodup_cons.1 hnd).1
    have hnd2 : as.Nodup := (List.nodup_cons.1 hnd).2
    have hga : (introStep s g a).tbl a = { g.tbl a with playerList := full ++ [s] } := by
      simp only [introStep]
      rw [addToPlayerList_tbl_ne _ s a a (Ne.symm hsa), addToPlayerList_tbl_self,
        hfull a (List.mem_cons_self a as), addPL_not_mem full s hsf]
    have hgs : (introStep s g a).tbl s =
        { g.tbl s with playerList := (g.tbl s).playerList ++ [a] } := by
      simp only [introStep]
      rw [addToPlayerList_tbl_self, addToPlayerList_tbl_ne g a s s hsa,
        addPL_not_mem _ a (hdisj a (List.mem_cons_self a as))]
    have hgj : ∀ j, j ≠ a → j ≠ s → (introStep s g a).tbl j = g.tbl j := by
      intro j hja hjs
      simp only [introStep]
      rw [addToPlayerList_tbl_ne _ s a j hjs, addToPlayerList_tbl_ne g a s j hja]
    have hfull2 : ∀ i ∈ as, ((introStep s g a).tbl i).playerList = full := by
      intro i hi
      have hia : i ≠ a := fun he => haas (he ▸ hi)
      have his : i ≠ s := fun he => hsas (he ▸ hi)
      rw [hgj i hia his]
      exact hfull i (List.mem_cons_of_mem a hi)
    have hdisj2 : ∀ i ∈ as, i ∉ ((introStep s g a).tbl s).playerList := by
      intro i hi hm
      rw [hgs] at hm
      rcases List.mem_append.1 hm with hm1 | hm1
      · exact hdisj i (List.mem_cons_of_mem a hi) hm1
      · have hia : i = a := by simpa using hm1
        exact haas (hia ▸ hi)
    have hih := ih (introStep s g a) hsas hnd2 hfull2 hdisj2
    rw [List.foldl_cons]
    refine ⟨?_, ?_, ?_, ?_⟩
    · rw [hih.1, introStep_sessions]
    · intro i hi
      rcases List.mem_cons.1 hi with h1 | h1
      · subst h1
        rw [hih.2.2.2 i haas (Ne.symm hsa), hga]
      · exact hih.2.1 i h1
    · rw [hih.2.2.1, hgs]
      simp
    · intro j hj hjs
      have hja : j ≠ a := fun he => hj (by rw [he]; exact List.mem_cons_self a as)
      have hjas : j ∉ as := fun hm => hj (List.mem_cons_of_mem a hm)
      rw [hih.2.2.2 j hjas hjs, hgj j hja hjs]

theorem initPlayerList_full_mesh (g : GState) (s : Nat) (l : List Nat)
    (hsess : g.sessions = l)
    (hinv : ∀ i, (g.tbl i).playerList = if i ∈ l then l else [])
    (hs : s ∉ l) (hnd : l.Nodup) :
    (g.initPlayerList s).sessions = l ++ [s] ∧
    (∀ i, ((g.initPlayerList s).tbl i).playerList =
      if i ∈ l ++ [s] then l ++ [s] else []) := by
  have hfold : g.initPlayerList s =
      introStep s ((l.foldl (introStep s) { g with sessions := l ++ [s] })) s := by
    simp only [GState.initPlayerList]
    rw [hsess, List.foldl_append, List.foldl_cons, List.foldl_nil]
  have hbase_full :
      ∀ i ∈ l, (({ g with sessions := l ++ [s] } : GState).tbl i).playerList = l := by
    intro i hi
    have h := hinv i
    simp only [hi, if_true] at h
    exact h
  have hbase_disj :
      ∀ i ∈ l, i ∉ (({ g with sessions := l ++ [s] } : GState).tbl s).playerList := by
    intro i hi hm
    have h := hinv s
    simp only [hs, if_false] at h
    rw [show (({ g with sessions := l ++ [s] } : GState).tbl s).playerList =
      (g.tbl s).playerList from rfl, h] at hm
    cases hm
  have hF := introFold l s l hs { g with sessions := l ++ [s] } hs hnd
    hbase_full hbase_disj
  have hrs : ((l.foldl (introStep s) { g with sessions := l ++ [s] }).tbl s).playerList
      = l := by
    rw [hF.2.2.1]
    have h := hinv s
    simp only [hs, if_false] at h
    rw [show (({ g with sessions := l ++ [s] } : GState).tbl s).playerList =
      (g.tbl s).playerList from rfl, h]
    simp
  constructor
  · rw [hfold, introStep_sessions, hF.1]
  · intro i
    rw [hfold]
    by_cases his : i = s
    · subst his
      simp only [introStep]
      rw [addToPlayerList_tbl_self, addToPlayerList_tbl_self, hrs,
        addPL_not_mem l i hs, addPL_mem _ i (by simp)]
      simp
    · have h1 : (introStep s (l.foldl (introStep s)
          { g with sessions := l ++ [s] }) s).tbl i =
          (l.foldl (introStep s) { g with sessions := l ++ [s] }).tbl i := by
        simp only [introStep]
        rw [addToPlayerList_tbl_ne _ s s i his, addToPlayerList_tbl_ne _ s s i his]
      rw [h1]
      by_cases hil : i ∈ l
      · rw [hF.2.1 i hil]
        simp [hil]
      · rw [hF.2.2.2 i hil his]
        have h := hinv i
        simp only [hil, if_false] at h
        rw [show (({ g with sessions := l ++ [s] } : GState).tbl i).playerList =
          (g.tbl i).playerList from rfl, h]
        have : i ∉ l ++ [s] := by
          intro hm
          rcases List.mem_append.1 hm with hm1 | hm1
          · exact hil hm1
          · exact his (by simpa using hm1)
        simp [this]

theorem joinAll_inv (L : List Nat) :
    ∀ (g : GState) (l : List Nat), g.sessions = l →
      (∀ i, (g.tbl i).playerList = if i ∈ l then l else []) →
      (l ++ L).Nodup →
      (joinAll g L).sessions = l ++ L ∧
      (∀ i, ((joinAll g L).tbl i).playerList = if i ∈ l ++ L then l ++ L else []) := by
  induction L with
  | nil =>
    intro g l hsess hinv _
    constructor
    · simpa [joinAll] using hsess
    · intro i
      simpa [joinAll] using hinv i
  | cons s L2 ih =>
    intro g l hsess hinv hnd
    have hnd2 : ((l ++ [s]) ++ L2).Nodup := by
      simpa [List.append_assoc] using hnd
    have hsl : s ∉ l := by
      rcases List.nodup_append.1 hnd with ⟨_, _, hdisj⟩
      exact fun hm => hdisj hm (List.mem_cons_self _ _)
    have hlnd : l.Nodup := (List.nodup_append.1 hnd).1
    have hstep := initPlayerList_full_mesh g s l hsess hinv hsl hlnd
    have hrec := ih (g.initPlayerList s) (l ++ [s]) hstep.1 hstep.2 hnd2
    constructor
    · have h := hrec.1
      simp only [joinAll, List.foldl_cons] at h ⊢
      simpa [List.append_assoc] using h
    · intro i
      have h := hrec.2 i
      simp only [joinAll, List.foldl_cons] at h ⊢
      simpa [List.append_assoc] using h

/-- C3: joining through the presence directory is a symmetric pairwise
introduction: starting from an empty directory, after the sessions of a
duplicate-free list have joined in order and none has left, the global slice
is exactly that list and the presence list of every joined session is exactly
the list of all joined sessions, itself included, so it has exactly N
entries. -/
theorem presence_join_full_mesh (g : GState) (L : List Nat)
    (h0 : g.sessions = []) (hpl : ∀ i, (g.tbl i).playerList = [])
    (hnd : L.Nodup) :
    (joinAll g L).sessions = L ∧
    (∀ i, ((joinAll g L).tbl i).playerList = if i ∈ L then L else []) ∧
    (∀ i ∈ L, ((joinAll g L).tbl i).playerList.length = L.length) := by
  have h := joinAll_inv L g [] h0 (fun i => by simp [hpl i]) (by simpa using hnd)
  refine ⟨by simpa using h.1, fun i => by simpa using h.2 i, ?_⟩
  intro i hi
  have h2 := h.2 i
  simp only [List.nil_append] at h2
  rw [h2]
  simp [hi]

/-- Witness for C3: three sessions join in order; the middle one sees all
three. -/
theorem presence_join_full_mesh_witness :
    (joinAll gEmpty [0, 1, 2]).sessions = [0, 1, 2] ∧
    ((joinAll gEmpty [0, 1, 2]).tbl 1).playerList.length = [0, 1, 2].length := by
  have h := presence_join_full_mesh gEmpty [0, 1, 2] rfl (fun i => rfl) (by decide)
  exact ⟨h.1, h.2.2 1 (by decide)⟩

/-! ### Helper lemmas: Close and its idempotence -/

theorem closePlayerList_some (g : GState) (s : Nat) (hne : g.sessions ≠ []) :
    g.closePlayerList s =
      some { g.sessions.foldl (removeStep s) g with
             sessions := g.sessions.filter (fun x => x != s) } := by
  simp [GState.closePlayerList, List.isEmpty_eq_false.2 hne]

theorem fireOnStop_clear_fields (X : Session) :
    (fireOnStop (clearEntityIDs X)).cClosed = X.cClosed ∧
    (fireOnStop (clearEntityIDs X)).connClosed = X.connClosed ∧
    (fireOnStop (clearEntityIDs X)).loaderClosed = X.loaderClosed ∧
    (fireOnStop (clearEntityIDs X)).inWorld = X.inWorld ∧
    (fireOnStop (clearEntityIDs X)).entityRuntimeIDs = [] ∧
    (fireOnStop (clearEntityIDs X)).onStop = false ∧
    (fireOnStop (clearEntityIDs X)).stopCalls =
      (if X.onStop then X.stopCalls + 1 else X.stopCalls) := by
  cases hon : X.onStop <;> simp [fireOnStop, clearEntityIDs, hon]

theorem session_closeFlags_id (ss : Session) (h1 : ss.cClosed = true)
    (h2 : ss.connClosed = true) (h3 : ss.loaderClosed = true)
    (h4 : ss.inWorld = false) : closeFlags ss = ss := by
  cases ss
  simp_all [closeFlags]

theorem session_clearEntityIDs_id (ss : Session)
    (h : ss.entityRuntimeIDs = []) : clearEntityIDs ss = ss := by
  cases ss
  simp_all [clearEntityIDs]

theorem session_fireOnStop_id (ss : Session) (h : ss.onStop = false) :
    fireOnStop ss = ss := by
  simp [fireOnStop, h]

theorem close_some (g : GState) (s : Nat) (hne : g.sessions ≠ []) :
    ∃ g1, g.close s = some g1 ∧
      g1.sessions = g.sessions.filter (fun x => x != s) ∧
      (∀ i ∈ g1.sessions, s ∉ (g1.tbl i).playerList) ∧
      (g1.tbl s).cClosed = true ∧
      (g1.tbl s).connClosed = true ∧
      (g1.tbl s).loaderClosed = true ∧
      (g1.tbl s).inWorld = false ∧
      (g1.tbl s).entityRuntimeIDs = [] ∧
      (g1.tbl s).onStop = false ∧
      (g1.tbl s).stopCalls =
        (if (g.tbl s).onStop then (g.tbl s).stopCalls + 1 else (g.tbl s).stopCalls) := by
  have hne0 : (g.updTbl s closeFlags).sessions ≠ [] := hne
  have hfe : g.close s = some
      ((({ (g.updTbl s closeFlags).sessions.foldl (removeStep s)
            (g.updTbl s closeFlags) with
          sessions := (g.updTbl s closeFlags).sessions.filter (fun x => x != s) } :
          GState).updTbl s clearEntityIDs).updTbl s fireOnStop) := by
    simp only [GState.close]
    rw [closePlayerList_some _ _ hne0]
    rfl
  have hXf := foldRemove_fields (g.updTbl s closeFlags).sessions s s
    (g.updTbl s closeFlags)
  rw [updTbl_tbl_self] at hXf
  simp only [closeFlags] at hXf
  refine ⟨_, hfe, rfl, ?_, ?_, ?_, ?_, ?_, ?_, ?_, ?_⟩
  · intro i hi
    have hig : i ∈ g.sessions := (List.mem_filter.1 hi).1
    have his : i ≠ s := by
      have hb := (List.mem_filter.1 hi).2
      simpa using hb
    rw [updTbl_tbl_ne _ s i fireOnStop his, updTbl_tbl_ne _ s i clearEntityIDs his]
    exact foldRemove_not_mem _ s i _ hig
  · rw [updTbl_tbl_self, updTbl_tbl_self, (fireOnStop_clear_fields _).1]
    exact hXf.2.2.2.2.1
  · rw [updTbl_tbl_self, updTbl_tbl_self, (fireOnStop_clear_fields _).2.1]
    exact hXf.2.2.2.2.2.1
  · rw [updTbl_tbl_self, updTbl_tbl_self, (fireOnStop_clear_fields _).2.2.1]
    exact hXf.2.2.2.2.2.2.1
  · rw [updTbl_tbl_self, updTbl_tbl_self, (fireOnStop_clear_fields _).2.2.2.1]
    exact hXf.2.2.2.2.2.2.2
  · rw [updTbl_tbl_self, updTbl_tbl_self]
    exact (fireOnStop_clear_fields _).2.2.2.2.1
  · rw [updTbl_tbl_self, updTbl_tbl_self]
    exact (fireOnStop_clear_fields _).2.2.2.2.2.1
  · rw [updTbl_tbl_self, updTbl_tbl_self, (fireOnStop_clear_fields _).2.2.2.2.2.2,
      hXf.2.2.1, hXf.2.2.2.1]

theorem close_again (g1 : GState) (s : Nat) (hne : g1.sessions ≠ [])
    (hs : s ∉ g1.sessions)
    (hpl : ∀ i ∈ g1.sessions, s ∉ (g1.tbl i).playerList)
    (h1 : (g1.tbl s).cClosed = true) (h2 : (g1.tbl s).connClosed = true)
    (h3 : (g1.tbl s).loaderClosed = true) (h4 : (g1.tbl s).inWorld = false)
    (hmap : (g1.tbl s).entityRuntimeIDs = []) (hstop : (g1.tbl s).onStop = false) :
    g1.close s = some g1 := by
  have hg0 : g1.updTbl s closeFlags = g1 :=
    updTbl_id _ _ _ (session_closeFlags_id _ h1 h2 h3 h4)
  have hfold : g1.sessions.foldl (removeStep s) g1 = g1 :=
    foldRemove_id _ _ _ hpl
  have hcpl : g1.closePlayerList s = some g1 := by
    rw [closePlayerList_some g1 s hne, hfold, filter_ne_eq_self _ _ hs]
  simp only [GState.close]
  rw [hg0, hcpl, Option.map_some']
  rw [updTbl_id _ _ _ (session_clearEntityIDs_id _ hmap),
    updTbl_id _ _ _ (session_fireOnStop_id _ hstop)]

/-- C1 (amended): provided the presence directory still contains some other
session when Close is called, Close is idempotent: the first call triggers the
recorded stop callback exactly once and clears it, and a repeated Close
completes and returns the exact same closed state. Without that proviso the
claim fails: a second Close on the last session panics in closePlayerList. -/
theorem close_idempotent (g : GState) (s t : Nat)
    (ht : t ∈ g.sessions) (hts : t ≠ s) :
    ∃ g1, g.close s = some g1 ∧
      ((g.tbl s).onStop = true →
        (g1.tbl s).stopCalls = (g.tbl s).stopCalls + 1 ∧ (g1.tbl s).onStop = false) ∧
      g1.close s = some g1 := by
  have hne : g.sessions ≠ [] := List.ne_nil_of_mem ht
  obtain ⟨g1, hfe, hsess, hpl, h1, h2, h3, h4, hmap, hstop, hcalls⟩ :=
    close_some g s hne
  have htg1 : t ∈ g1.sessions := by
    rw [hsess]
    exact List.mem_filter.2 ⟨ht, bne_iff_ne.2 hts⟩
  have hne1 : g1.sessions ≠ [] := List.ne_nil_of_mem htg1
  have hs1 : s ∉ g1.sessions := by
    rw [hsess]
    simp [List.mem_filter]
  refine ⟨g1, hfe, ?_, close_again g1 s hne1 hs1 hpl h1 h2 h3 h4 hmap hstop⟩
  intro hon
  refine ⟨?_, hstop⟩
  rw [hcalls]
  simp [hon]

/-- Witness for the amended C1: closing session 0 of the two-session
directory twice. -/
theorem close_idempotent_witness :
    ∃ g1, gTwo.close 0 = some g1 ∧
      ((gTwo.tbl 0).onStop = true →
        (g1.tbl 0).stopCalls = (gTwo.tbl 0).stopCalls + 1 ∧ (g1.tbl 0).onStop = false) ∧
      g1.close 0 = some g1 :=
  close_idempotent gTwo 0 1 (by decide) (by decide)

/-- C1 counterexample: for a session started alone, the first Close completes
but a second Close reaches closePlayerList with an empty global slice and
panics on the negative-capacity allocation, so Close as stated is not
unconditionally idempotent. -/
theorem close_twice_sole_session_cex :
    (gOne.close 0).isSome = true ∧
    Option.bind (gOne.close 0) (fun g1 => g1.close 0) = none := by
  constructor
  · rfl
  · rfl
